import Mathlib

/-!
Shallow embedding of the MCP server lifecycle manager
(src/app/services/mcp_service.py) and of the agent configuration,
metrics and memory services (src/app/services/agent_service.py,
src/app/services/memory_service.py) of the dsp_ai_agent_bldr repository,
with theorems settling the frozen claims about them.

Modelling conventions:
  - A Python dict keyed by strings is a function String to Option.
  - Network and process effects are passed in as an oracle record whose
    fields give, for each outgoing request, either the response that the
    call would produce or Option.none for a raised transport exception.
  - Python float arithmetic is modelled exactly over the rationals.
  - Datetimes are abstract ticks (Nat) supplied by the oracle.
-/

/-! ## Data model of src/app/config.py -/

/-- MCPTransport (config.py lines 90-95). -/
inductive MCPTransport where
  | http
  | streamableHttp
  | stdio
  | sse
deriving DecidableEq, Repr

/-- MCPServerStatus (config.py lines 97-103). -/
inductive MCPServerStatus where
  | stopped
  | starting
  | running
  | error
  | unknown
deriving DecidableEq, Repr

/-- MCPServerConfig (config.py lines 132-154). Fields the verified claims
never touch (display_name, description, auto_start, metadata) are elided. -/
structure MCPServerConfig where
  name : String
  transport : MCPTransport
  host : String
  port : Nat
  base_url : Option String
  command : Option String
  args : List String
  env : List (String × String)
  enabled : Bool
  timeout : Nat
deriving DecidableEq, Repr

/-- Python truthiness of an Optional[str]: None and the empty string are
falsy, any other string is truthy. -/
def strTruthy : Option String → Bool
  | Option.none => false
  | Option.some s => !s.isEmpty

/-- MCPServerConfig.url (config.py lines 149-154): the explicit base_url
when it is truthy, else http scheme plus host and port. -/
def MCPServerConfig.url (c : MCPServerConfig) : String :=
  if strTruthy c.base_url then c.base_url.getD ""
  else "http://" ++ c.host ++ ":" ++ toString c.port

/-! ## Runtime state of src/app/services/mcp_service.py -/

/-- MCPServerInfo (mcp_service.py lines 14-23): runtime record for one
server. The subprocess handle is an abstract process id. -/
structure MCPServerInfo where
  config : MCPServerConfig
  status : MCPServerStatus
  process : Option Nat
  last_health_check : Option Nat
  error_message : Option String
  available_tools : List String
  available_resources : List String
deriving DecidableEq, Repr

/-- MCPService.servers: the dict from server name to runtime info. -/
def MCPState : Type := String → Option MCPServerInfo

/-- An outgoing HTTP request: the url it targets and the client timeout it
is issued with (httpx.AsyncClient(timeout=config.timeout)). -/
structure HttpRequest where
  url : String
  timeout : Nat
deriving DecidableEq, Repr

/-- Oracle for the effects the service performs. Each field returns the
response a request would get, or Option.none when the call raises a
transport exception; alive is subprocess poll() reporting the process
still runs; now is the current datetime tick. -/
structure Net where
  healthResp : HttpRequest → Option Nat
  toolsResp : HttpRequest → Option (Nat × List String)
  resourcesResp : HttpRequest → Option (Nat × List String)
  toolCallResp : HttpRequest → String → Option (Nat × String)
  resourceResp : HttpRequest → String → Option (Nat × String)
  alive : Nat → Bool
  now : Nat

/-- Update the entry stored under a name, when present (the Python code
only ever assigns fields of self.servers[server_name] that exists). -/
def updateServer (name : String) (f : MCPServerInfo → MCPServerInfo) (s : MCPState) : MCPState :=
  fun n => if n = name then (s n).map f else s n

/-- Fresh runtime info as MCPServerInfo.__init__ builds it: status STOPPED,
no process, no health check, no error, no discovered capabilities. -/
def freshInfo (cfg : MCPServerConfig) : MCPServerInfo :=
  { config := cfg
    status := MCPServerStatus.stopped
    process := Option.none
    last_health_check := Option.none
    error_message := Option.none
    available_tools := []
    available_resources := [] }

/-- The state _load_configurations (and reload_configurations) produces
from a configuration file: every loaded server gets fresh runtime info. -/
def loadState (cfgs : String → Option MCPServerConfig) : MCPState :=
  fun n => (cfgs n).map freshInfo

/-- MCPService.add_server (mcp_service.py lines 119-133): store fresh
runtime info under the config name and report success. -/
def addServer (cfg : MCPServerConfig) (s : MCPState) : Bool × MCPState :=
  (true, fun n => if n = cfg.name then Option.some (freshInfo cfg) else s n)

/-- MCPService.health_check (mcp_service.py lines 285-311). For HTTP
transports it issues GET url/health with the configured timeout, records
the check time once a response arrives, and reports status code 200; a
raised request (oracle none) is caught and reported False without
recording a time. For STDIO it polls the stored process when one exists.
Everything else reports False. -/
def healthCheck (o : Net) (name : String) (s : MCPState) : Bool × MCPState :=
  match s name with
  | Option.none => (false, s)
  | Option.some info =>
    let cfg := info.config
    if cfg.transport = MCPTransport.http ∨ cfg.transport = MCPTransport.streamableHttp then
      match o.healthResp { url := cfg.url ++ "/health", timeout := cfg.timeout } with
      | Option.none => (false, s)
      | Option.some code =>
          (decide (code = 200),
           updateServer name (fun i => { i with last_health_check := Option.some o.now }) s)
    else if cfg.transport = MCPTransport.stdio then
      match info.process with
      | Option.some p =>
          (o.alive p,
           updateServer name (fun i => { i with last_health_check := Option.some o.now }) s)
      | Option.none => (false, s)
    else (false, s)

/-- MCPService.discover_capabilities (mcp_service.py lines 313-343). For
HTTP transports, GET url/tools and url/resources each replace the stored
list when they answer 200; a raised or non-200 response leaves the list
as it was. Non-HTTP transports are untouched. The status never changes. -/
def discoverCapabilities (o : Net) (name : String) (s : MCPState) : MCPState :=
  match s name with
  | Option.none => s
  | Option.some info =>
    let cfg := info.config
    if cfg.transport = MCPTransport.http ∨ cfg.transport = MCPTransport.streamableHttp then
      let s1 :=
        match o.toolsResp { url := cfg.url ++ "/tools", timeout := cfg.timeout } with
        | Option.some (code, ts) =>
            if code = 200 then
              updateServer name (fun i => { i with available_tools := ts }) s
            else s
        | Option.none => s
      match o.resourcesResp { url := cfg.url ++ "/resources", timeout := cfg.timeout } with
      | Option.some (code, rs) =>
          if code = 200 then
            updateServer name (fun i => { i with available_resources := rs }) s1
          else s1
      | Option.none => s1
    else s

/-- Status of the named server, when registered. -/
def statusOf (name : String) (s : MCPState) : Option MCPServerStatus :=
  (s name).map MCPServerInfo.status

/-- MCPService.start_server (mcp_service.py lines 180-249). Unknown or
disabled servers report False; an already RUNNING server reports True.
Otherwise the status moves to STARTING and the error message clears.
The STDIO-with-command branch (lines 201-224) evaluates os.environ at
line 204, but mcp_service.py never imports os: the lookup raises
NameError before subprocess.Popen runs, the broad handler at lines
244-249 stores status ERROR with the interpreter message and the call
reports False — no subprocess is ever spawned. HTTP transports run the
health check: success moves to RUNNING, then capabilities are discovered
and the call reports whether the status is RUNNING; failure stores
status ERROR with message Server not reachable and reports False. Any
other transport falls through both branches to capability discovery and
reports whether the status is RUNNING (it is left STARTING). -/
def startServer (o : Net) (name : String) (s : MCPState) : Bool × MCPState :=
  match s name with
  | Option.none => (false, s)
  | Option.some info =>
    if ¬ info.config.enabled then (false, s)
    else if info.status = MCPServerStatus.running then (true, s)
    else
      let s1 := updateServer name
        (fun i => { i with
            status := MCPServerStatus.starting
            error_message := Option.none }) s
      let cfg := info.config
      if cfg.transport = MCPTransport.stdio ∧ strTruthy cfg.command then
        (false, updateServer name
          (fun i => { i with
              status := MCPServerStatus.error
              error_message := Option.some "name \x27os\x27 is not defined" }) s1)
      else if cfg.transport = MCPTransport.http ∨ cfg.transport = MCPTransport.streamableHttp then
        let hc := healthCheck o name s1
        if hc.1 then
          let s3 := updateServer name (fun i => { i with status := MCPServerStatus.running }) hc.2
          let s4 := discoverCapabilities o name s3
          (decide (statusOf name s4 = Option.some MCPServerStatus.running), s4)
        else
          (false, updateServer name
            (fun i => { i with
                status := MCPServerStatus.error
                error_message := Option.some "Server not reachable" }) hc.2)
      else
        let s2 := discoverCapabilities o name s1
        (decide (statusOf name s2 = Option.some MCPServerStatus.running), s2)

/-- MCPService.stop_server (mcp_service.py lines 251-283). An unknown
server reports False. A server already STOPPED reports True with the
state untouched (lines 260-262 return before any field is cleared).
Otherwise the process, if any, is terminated and its handle dropped, the
status becomes STOPPED, the error message clears and the discovered
tool and resource lists empty. -/
def stopServer (name : String) (s : MCPState) : Bool × MCPState :=
  match s name with
  | Option.none => (false, s)
  | Option.some info =>
    if info.status = MCPServerStatus.stopped then (true, s)
    else
      (true, updateServer name
        (fun i => { i with
            process := Option.none
            status := MCPServerStatus.stopped
            error_message := Option.none
            available_tools := []
            available_resources := [] }) s)

/-- MCPService.delete_server (mcp_service.py lines 157-178): stop the
server when it is RUNNING, then drop its entry. -/
def deleteServer (name : String) (s : MCPState) : Bool × MCPState :=
  match s name with
  | Option.none => (false, s)
  | Option.some info =>
    let s1 := if info.status = MCPServerStatus.running then (stopServer name s).2 else s
    (true, fun n => if n = name then Option.none else s1 n)

/-- Errors MCPService.call_tool and get_resource raise. -/
inductive MCPCallError where
  | serverNotFound
  | serverNotRunning
  | transportNotSupported
  | httpStatusError (code : Nat)
  | transportRaised
deriving DecidableEq, Repr

/-- httpx Response.raise_for_status raises unless the response status code
is a 2xx success code. -/
def httpSuccess (code : Nat) : Bool := 200 ≤ code ∧ code ≤ 299

/-- MCPService.call_tool (mcp_service.py lines 345-371): raise for an
unknown or non-RUNNING server; for HTTP transports POST
url/tools/tool_name with the configured timeout, re-raising transport
errors and non-success statuses; raise not-implemented otherwise. The
tracked state is returned untouched in every case. -/
def callTool (o : Net) (serverName toolName arguments : String) (s : MCPState) :
    Except MCPCallError String × MCPState :=
  match s serverName with
  | Option.none => (Except.error MCPCallError.serverNotFound, s)
  | Option.some info =>
    if info.status ≠ MCPServerStatus.running then
      (Except.error MCPCallError.serverNotRunning, s)
    else
      let cfg := info.config
      if cfg.transport = MCPTransport.http ∨ cfg.transport = MCPTransport.streamableHttp then
        match o.toolCallResp { url := cfg.url ++ "/tools/" ++ toolName, timeout := cfg.timeout }
            arguments with
        | Option.none => (Except.error MCPCallError.transportRaised, s)
        | Option.some (code, body) =>
            if httpSuccess code then (Except.ok body, s)
            else (Except.error (MCPCallError.httpStatusError code), s)
      else (Except.error MCPCallError.transportNotSupported, s)

/-- MCPService.get_resource (mcp_service.py lines 373-399): same shape as
call_tool, issuing GET url/resources with the uri parameter. -/
def getResource (o : Net) (serverName resourceUri : String) (s : MCPState) :
    Except MCPCallError String × MCPState :=
  match s serverName with
  | Option.none => (Except.error MCPCallError.serverNotFound, s)
  | Option.some info =>
    if info.status ≠ MCPServerStatus.running then
      (Except.error MCPCallError.serverNotRunning, s)
    else
      let cfg := info.config
      if cfg.transport = MCPTransport.http ∨ cfg.transport = MCPTransport.streamableHttp then
        match o.resourceResp { url := cfg.url ++ "/resources", timeout := cfg.timeout }
            resourceUri with
        | Option.none => (Except.error MCPCallError.transportRaised, s)
        | Option.some (code, body) =>
            if httpSuccess code then (Except.ok body, s)
            else (Except.error (MCPCallError.httpStatusError code), s)
      else (Except.error MCPCallError.transportNotSupported, s)

/-- The MCP states the service can be in: a freshly loaded configuration
file (also what reload_configurations produces) followed by any sequence
of the mutating operations the service and its API routes expose. -/
inductive ReachableMCP : MCPState → Prop where
  | load (cfgs : String → Option MCPServerConfig) : ReachableMCP (loadState cfgs)
  | add (cfg : MCPServerConfig) {s : MCPState} :
      ReachableMCP s → ReachableMCP (addServer cfg s).2
  | start (o : Net) (name : String) {s : MCPState} :
      ReachableMCP s → ReachableMCP (startServer o name s).2
  | stop (name : String) {s : MCPState} :
      ReachableMCP s → ReachableMCP (stopServer name s).2
  | del (name : String) {s : MCPState} :
      ReachableMCP s → ReachableMCP (deleteServer name s).2
  | health (o : Net) (name : String) {s : MCPState} :
      ReachableMCP s → ReachableMCP (healthCheck o name s).2
  | discover (o : Net) (name : String) {s : MCPState} :
      ReachableMCP s → ReachableMCP (discoverCapabilities o name s)

/-- Invariant: a server tracked as RUNNING has an HTTP transport. The
STDIO start path dies in the NameError before reaching RUNNING and no
other operation sets that status. -/
def RunningIsHttp (s : MCPState) : Prop :=
  ∀ n i, s n = Option.some i → i.status = MCPServerStatus.running →
    i.config.transport = MCPTransport.http ∨ i.config.transport = MCPTransport.streamableHttp

/-! ## Data model of the agent services (config.py, agent_models.py) -/

/-- MemoryType (config.py lines 82-88). -/
inductive MemoryType where
  | none
  | buffer
  | summary
  | vector
  | entity
deriving DecidableEq, Repr

/-- LLMConfig (config.py lines 114-130): the string-valued fields the
environment-variable substitution walks; numeric knobs are elided. -/
structure LLMConfig where
  model : String
  api_key : Option String
  server_url : Option String
deriving DecidableEq, Repr

/-- ToolConfig (config.py lines 156-165): name and description; the
enum-typed and MCP linkage fields play no part in the claims. -/
structure ToolConfig where
  name : String
  description : String
deriving DecidableEq, Repr

/-- MemoryConfig (config.py lines 167-172). -/
structure MemoryConfig where
  type : MemoryType
  max_tokens : Nat
  summary_prompt : Option String
deriving DecidableEq, Repr

/-- AgentConfig (config.py lines 174-203). Fields no claim touches
(agent_type, max_iterations, timeout, metadata) are elided. -/
structure AgentConfig where
  name : String
  description : String
  llm : LLMConfig
  system_prompt : String
  tools : List ToolConfig
  mcp_servers : List String
  memory : MemoryConfig
deriving DecidableEq, Repr

/-- Python str.strip(): drop leading and trailing whitespace. -/
def pyStrip (s : String) : String :=
  String.mk (((s.data.dropWhile Char.isWhitespace).reverse.dropWhile Char.isWhitespace).reverse)

/-- The validate_config model validator (config.py lines 191-203), rerun
whenever pydantic reconstructs an AgentConfig from a dict: tool names
must be unique and the system prompt non-blank. -/
def validAgentConfig (c : AgentConfig) : Prop :=
  (c.tools.map ToolConfig.name).Nodup ∧ pyStrip c.system_prompt ≠ ""

instance (c : AgentConfig) : Decidable (validAgentConfig c) := by
  unfold validAgentConfig; infer_instance

/-- process_env_vars_in_model (config.py lines 34-52) for an AgentConfig,
parameterised by the substitution resolve_env_vars performs on one
string. The traversal resolves the top-level string fields and the
string values one level inside dict-valued fields (llm, memory); list
fields (tools, mcp_servers) are left untouched, and enum-valued strings
never contain an environment-variable pattern, so substituting in them
is the identity and they are omitted here. -/
def processEnvVars (r : String → String) (c : AgentConfig) : AgentConfig :=
  { c with
    name := r c.name
    description := r c.description
    system_prompt := r c.system_prompt
    llm := { c.llm with
      model := r c.llm.model
      api_key := c.llm.api_key.map r
      server_url := c.llm.server_url.map r }
    memory := { c.memory with summary_prompt := c.memory.summary_prompt.map r } }

/-- AgentMetrics (agent_models.py lines 47-58); averages are exact
rationals, datetime stamps are abstract ticks with created_at and
updated_at bookkeeping elided. -/
structure AgentMetrics where
  agent_name : String
  total_executions : Nat
  successful_executions : Nat
  failed_executions : Nat
  average_execution_time : ℚ
  average_iterations : ℚ
  total_tool_calls : Nat
  last_execution : Option Nat
deriving DecidableEq, Repr

/-- AgentMetrics with every counter at its model default. -/
def freshMetrics (agent_name : String) : AgentMetrics :=
  { agent_name := agent_name
    total_executions := 0
    successful_executions := 0
    failed_executions := 0
    average_execution_time := 0
    average_iterations := 0
    total_tool_calls := 0
    last_execution := Option.none }

/-- AgentService state: the configurations dict and the metrics dict. -/
structure AgentState where
  configurations : String → Option AgentConfig
  metrics : String → Option AgentMetrics

/-- AgentService.get_configuration (agent_service.py lines 176-178). -/
def getConfiguration (agent_name : String) (st : AgentState) : Option AgentConfig :=
  st.configurations agent_name

/-- AgentService.add_configuration (agent_service.py lines 152-174):
substitute environment variables (process_env_vars_in_model reconstructs
the model, rerunning its validators; a validation error is caught by the
broad handler and reported False with nothing stored), overwrite the
name field with the key, store the result, and create fresh metrics when
the agent has none. -/
def addConfiguration (r : String → String) (agent_name : String) (config : AgentConfig)
    (st : AgentState) : Bool × AgentState :=
  let c := processEnvVars r config
  if validAgentConfig c then
    let stored := { c with name := agent_name }
    (true,
      { configurations := fun n =>
          if n = agent_name then Option.some stored else st.configurations n
        metrics :=
          if (st.metrics agent_name).isSome then st.metrics
          else fun n =>
            if n = agent_name then Option.some (freshMetrics agent_name) else st.metrics n })
  else (false, st)

/-- AgentService.delete_configuration (agent_service.py lines 211-238):
refuse unknown names and the reserved default agent, otherwise drop the
configuration and its metrics. -/
def deleteConfiguration (agent_name : String) (st : AgentState) : Bool × AgentState :=
  match st.configurations agent_name with
  | Option.none => (false, st)
  | Option.some _ =>
    if agent_name = "default" then (false, st)
    else
      (true,
        { configurations := fun n => if n = agent_name then Option.none else st.configurations n
          metrics := fun n => if n = agent_name then Option.none else st.metrics n })

/-- AgentService.duplicate_configuration (agent_service.py lines 240-269):
require an existing source and a free target name; rebuilding the source
from its dict reruns the validators (a failure is caught and reported
False), then the copy gets the target name and a Copy of description,
and fresh metrics are created for the target. -/
def duplicateConfiguration (source_name target_name : String) (st : AgentState) :
    Bool × AgentState :=
  match st.configurations source_name with
  | Option.none => (false, st)
  | Option.some src =>
    if (st.configurations target_name).isSome then (false, st)
    else if validAgentConfig src then
      let tgt := { src with
        name := target_name
        description := "Copy of " ++ src.description }
      (true,
        { configurations := fun n =>
            if n = target_name then Option.some tgt else st.configurations n
          metrics := fun n =>
            if n = target_name then Option.some (freshMetrics target_name) else st.metrics n })
    else (false, st)

/-- The default agent _create_default_configuration stores
(agent_service.py lines 50-72), restricted to the modelled fields. -/
def defaultAgentConfig : AgentConfig :=
  { name := "default"
    description := "Default conversational agent with basic tools"
    llm := { model := "llama3-8b-8192"
             api_key := Option.none
             server_url := Option.some "http://localhost:8000" }
    system_prompt := "You are a helpful AI assistant. Use the available tools to help the user with their requests."
    tools := [{ name := "calculator", description := "Perform mathematical calculations" }]
    mcp_servers := []
    memory := { type := MemoryType.buffer, max_tokens := 2000, summary_prompt := Option.none } }

/-- AgentService._create_default_configuration (agent_service.py lines
50-72): store the default agent under the key default. -/
def createDefaultConfiguration (st : AgentState) : AgentState :=
  { st with configurations := fun n =>
      if n = "default" then Option.some defaultAgentConfig else st.configurations n }

/-- One field update of AgentService.update_metrics (agent_service.py
lines 289-317) on a metrics record: the execution counter grows, the
success or failure counter grows, each average is rebuilt from the
previous average times the previous count, and the tool-call total and
timestamps advance. -/
def updateMetricsEntry (m : AgentMetrics) (execution_time : ℚ) (success : Bool)
    (iterations tool_calls clock : Nat) : AgentMetrics :=
  let total : Nat := m.total_executions + 1
  { m with
    total_executions := total
    successful_executions :=
      if success then m.successful_executions + 1 else m.successful_executions
    failed_executions :=
      if success then m.failed_executions else m.failed_executions + 1
    average_execution_time :=
      (m.average_execution_time * ((total : ℚ) - 1) + execution_time) / (total : ℚ)
    average_iterations :=
      (m.average_iterations * ((total : ℚ) - 1) + (iterations : ℚ)) / (total : ℚ)
    total_tool_calls := m.total_tool_calls + tool_calls
    last_execution := Option.some clock }

/-- AgentService.update_metrics at the service level: fetch or create the
metrics record for the agent, then apply the field updates. -/
def updateMetrics (agent_name : String) (execution_time : ℚ) (success : Bool)
    (iterations tool_calls clock : Nat) (st : AgentState) : AgentState :=
  let m := (st.metrics agent_name).getD (freshMetrics agent_name)
  { st with metrics := fun n =>
      if n = agent_name then
        Option.some (updateMetricsEntry m execution_time success iterations tool_calls clock)
      else st.metrics n }

/-- One recorded execution fed to update_metrics, with its clock tick. -/
structure ExecCall where
  execution_time : ℚ
  success : Bool
  iterations : Nat
  tool_calls : Nat
  clock : Nat
deriving DecidableEq, Repr

/-- The metrics record an agent accumulates over a sequence of
update_metrics calls, starting from the fresh record the first call
creates. -/
def runMetricsCalls (agent_name : String) (calls : List ExecCall) : AgentMetrics :=
  calls.foldl
    (fun m c => updateMetricsEntry m c.execution_time c.success c.iterations c.tool_calls c.clock)
    (freshMetrics agent_name)

/-! ## Embedding of src/app/services/memory_service.py -/

/-- MemoryEntry (agent_models.py): the content and role of one stored
message; id, timestamp and metadata carry no weight in the claims. -/
structure MemoryEntry where
  content : String
  role : String
deriving DecidableEq, Repr

/-- A chat message as the service passes it around (a dict with role and
content; the optional metadata is elided). -/
structure ChatMessage where
  role : String
  content : String
deriving DecidableEq, Repr

/-- Python str.split() without arguments: split on runs of whitespace,
dropping empty pieces. -/
def pySplit (s : String) : List String :=
  (s.split fun c => c.isWhitespace).filter fun w => ¬ w.isEmpty

/-- The rough token estimate len(content.split()) * 1.3 the memory
service uses, with the float literal 1.3 taken exactly. -/
def estTokens (content : String) : ℚ :=
  ((pySplit content).length : ℚ) * (13 / 10)

/-- Total estimated tokens of a list of memory entries. -/
def totalTokens (l : List MemoryEntry) : ℚ :=
  (l.map fun e => estTokens e.content).sum

/-- The while loop of MemoryService._apply_memory_limits (memory_service.py
lines 193-216): pop the oldest entry while the token total exceeds the
limit and more than one entry remains. The running total kept by
subtraction in the source equals the recomputed sum exactly over the
rationals. -/
def trimFront (max_tokens : ℚ) : List MemoryEntry → List MemoryEntry
  | [] => []
  | [e] => [e]
  | e :: f :: rest =>
    if max_tokens < totalTokens (e :: f :: rest) then trimFront max_tokens (f :: rest)
    else e :: f :: rest

/-- How store_conversation turns an incoming message into a MemoryEntry. -/
def toMemoryEntry (msg : ChatMessage) : MemoryEntry :=
  { content := msg.content, role := msg.role }

/-- MemoryService.store_conversation (memory_service.py lines 75-100)
acting on one agent: append every message as a memory entry, then apply
the memory limits of the agent configuration; when the agent has no
configuration, _apply_memory_limits returns without trimming. -/
def storeConversation (config : Option AgentConfig) (old : List MemoryEntry)
    (messages : List ChatMessage) : List MemoryEntry :=
  let appended := old ++ messages.map toMemoryEntry
  match config with
  | Option.none => appended
  | Option.some c => trimFront (c.memory.max_tokens : ℚ) appended

/-- Python list.insert(idx, x): a negative index counts from the end and
clamps at the front, a non-negative one clamps at the length. -/
def pyInsert {α : Type} (l : List α) (idx : Int) (x : α) : List α :=
  let pos : Nat := if idx < 0 then (Int.ofNat l.length + idx).toNat else min idx.toNat l.length
  l.take pos ++ x :: l.drop pos

/-- The first loop of the BUFFER branch of get_memory_context
(memory_service.py lines 126-132): append current messages while they
fit in the token budget, stopping at the first that does not. -/
def takeWithinBudget (max_tokens : ℚ) : ℚ → List ChatMessage → ℚ × List ChatMessage
  | total, [] => (total, [])
  | total, msg :: rest =>
    let t := estTokens msg.content
    if total + t ≤ max_tokens then
      let next := takeWithinBudget max_tokens (total + t) rest
      (next.1, msg :: next.2)
    else (total, [])

/-- The second loop of the BUFFER branch (memory_service.py lines
135-145): walk the last twenty memories newest first, inserting each
that fits at the slot len(context) minus len(current_messages), stopping
at the first that does not fit. -/
def addMemories (max_tokens : ℚ) (cur_len : Nat) :
    ℚ → List ChatMessage → List MemoryEntry → ℚ × List ChatMessage
  | total, ctx, [] => (total, ctx)
  | total, ctx, mem :: rest =>
    let t := estTokens mem.content
    if total + t ≤ max_tokens then
      addMemories max_tokens cur_len (total + t)
        (pyInsert ctx (-(cur_len : Int)) { role := mem.role, content := mem.content }) rest
    else (total, ctx)

/-- The BUFFER branch of get_memory_context (memory_service.py lines
119-147). -/
def bufferContext (max_tokens : ℚ) (memories : List MemoryEntry)
    (current_messages : List ChatMessage) : List ChatMessage :=
  let first := takeWithinBudget max_tokens 0 current_messages
  (addMemories max_tokens current_messages.length first.1 first.2 (memories.reverse.take 20)).2

/-- What _create_memory_summary contributes for one memory entry
(memory_service.py lines 180-186). -/
def summaryPart (m : MemoryEntry) : List String :=
  if m.role = "user" then ["User asked: " ++ m.content.take 100]
  else if m.role = "assistant" then ["Assistant responded: " ++ m.content.take 100]
  else []

/-- MemoryService._create_memory_summary (memory_service.py lines
174-191): the last ten memories in order, each clipped to one hundred
characters, joined with a bar separator. -/
def createMemorySummary (memories : List MemoryEntry) : String :=
  String.intercalate " | " (((memories.reverse.take 10).reverse.map summaryPart).flatten)

/-- MemoryService.get_memory_context (memory_service.py lines 102-172)
unfolded with explicit fuel: the source recursion in the VECTOR branch
(line 165) calls get_memory_context again with the very same agent and
messages, so the unfolding consumes fuel without progress; a returned
Option.none means the recursion never produced a value by itself (in
CPython the stack eventually overflows and the broad handler turns the
RecursionError into the input messages, never reaching the buffer logic
the comment at lines 163-164 promises). -/
def getMemoryContextFuel (fuel : Nat) (config : Option AgentConfig)
    (stores : String → Option (List MemoryEntry)) (agent_name : String)
    (current_messages : List ChatMessage) : Option (List ChatMessage) :=
  match fuel with
  | 0 => Option.none
  | fuel + 1 =>
    match config with
    | Option.none => Option.some current_messages
    | Option.some c =>
      if c.memory.type = MemoryType.none then Option.some current_messages
      else
        match stores agent_name with
        | Option.none => Option.some current_messages
        | Option.some memories =>
          match c.memory.type with
          | MemoryType.buffer =>
              Option.some (bufferContext (c.memory.max_tokens : ℚ) memories current_messages)
          | MemoryType.summary =>
              Option.some ({ role := "system"
                             content := "Previous conversation summary: " ++
                               createMemorySummary memories } :: current_messages)
          | MemoryType.vector =>
              getMemoryContextFuel fuel config stores agent_name current_messages
          | _ => Option.some current_messages

/-! ## Concrete fixtures -/

/-- An enabled STDIO server with a command set, as the claims about the
subprocess path quantify over. -/
def stdioServerConfig : MCPServerConfig :=
  { name := "local"
    transport := MCPTransport.stdio
    host := "localhost"
    port := 8005
    base_url := Option.none
    command := Option.some "python"
    args := ["server.py"]
    env := []
    enabled := true
    timeout := 30 }

/-- The weather default server (mcp_service.py lines 63-72) restricted to
the modelled fields. -/
def httpServerConfig : MCPServerConfig :=
  { name := "weather"
    transport := MCPTransport.http
    host := "localhost"
    port := 8002
    base_url := Option.none
    command := Option.none
    args := []
    env := []
    enabled := true
    timeout := 30 }

/-- An oracle on which every outgoing call raises. -/
def noNet : Net :=
  { healthResp := fun _ => Option.none
    toolsResp := fun _ => Option.none
    resourcesResp := fun _ => Option.none
    toolCallResp := fun _ _ => Option.none
    resourceResp := fun _ _ => Option.none
    alive := fun _ => false
    now := 0 }

/-- An oracle on which every outgoing call succeeds. -/
def httpNet : Net :=
  { healthResp := fun _ => Option.some 200
    toolsResp := fun _ => Option.some (200, ["get_weather"])
    resourcesResp := fun _ => Option.some (200, [])
    toolCallResp := fun _ _ => Option.some (200, "result")
    resourceResp := fun _ _ => Option.some (200, "resource")
    alive := fun _ => true
    now := 7 }

/-- A configuration file holding only the STDIO server. -/
def stdioConfigs : String → Option MCPServerConfig :=
  fun n => if n = "local" then Option.some stdioServerConfig else Option.none

/-- A configuration file holding only the weather HTTP server. -/
def weatherConfigs : String → Option MCPServerConfig :=
  fun n => if n = "weather" then Option.some httpServerConfig else Option.none

/-- The service state right after loading the STDIO-only file. -/
def stdioState : MCPState := loadState stdioConfigs

/-- The state after loading the weather file and starting the server
against the all-success oracle: the server ends up RUNNING. -/
def runningState : MCPState := (startServer httpNet "weather" (loadState weatherConfigs)).2

/-- The state in which the weather server was loaded (status STOPPED)
and the capability-discovery endpoint then ran against the all-success
oracle, filling its tool list while it stayed STOPPED. -/
def dirtyStoppedState : MCPState :=
  discoverCapabilities httpNet "weather" (loadState weatherConfigs)

/-- An agent service state with nothing stored. -/
def emptyAgentState : AgentState :=
  { configurations := fun _ => Option.none
    metrics := fun _ => Option.none }

/-- The state right after default creation. -/
def seededAgentState : AgentState := createDefaultConfiguration emptyAgentState

/-- Invariant of the configuration store: every stored configuration
carries the key it is stored under as its name. -/
def NameMatchesKey (st : AgentState) : Prop :=
  ∀ n c, st.configurations n = Option.some c → c.name = n

/-- An agent configuration whose memory type is VECTOR. -/
def vectorAgentConfig : AgentConfig :=
  { defaultAgentConfig with
    memory := { type := MemoryType.vector, max_tokens := 2000, summary_prompt := Option.none } }

/-- A memory store in which the agent has stored history, so the VECTOR
branch is reached. -/
def vectorMemStores : String → Option (List MemoryEntry) :=
  fun n => if n = "researcher" then Option.some [{ content := "hello there", role := "user" }]
    else Option.none


/-! ## Invariants of the MCP state machine -/

/-- A step from s to t that moves no server into or out of the dict and
changes no status or config: enough to carry RunningIsHttp along. -/
def PreservesStatusConfig (s t : MCPState) : Prop :=
  ∀ n i, t n = Option.some i →
    ∃ j, s n = Option.some j ∧ i.status = j.status ∧ i.config = j.config

theorem preservesStatusConfig_refl (s : MCPState) : PreservesStatusConfig s s :=
  fun _ i ht => ⟨i, ht, rfl, rfl⟩

theorem preservesStatusConfig_trans {s t u : MCPState}
    (h1 : PreservesStatusConfig s t) (h2 : PreservesStatusConfig t u) :
    PreservesStatusConfig s u := by
  intro n i hu
  obtain ⟨j, hj, hs1, hc1⟩ := h2 n i hu
  obtain ⟨k, hk, hs2, hc2⟩ := h1 n j hj
  exact ⟨k, hk, hs1.trans hs2, hc1.trans hc2⟩

theorem preservesStatusConfig_updateServer (name : String) (s : MCPState)
    (f : MCPServerInfo → MCPServerInfo)
    (hf : ∀ i, (f i).status = i.status ∧ (f i).config = i.config) :
    PreservesStatusConfig s (updateServer name f s) := by
  intro n i ht
  by_cases hn : n = name
  · rw [updateServer, if_pos hn] at ht
    cases hs : s n with
    | none => rw [hs] at ht; cases ht
    | some j =>
      rw [hs] at ht
      simp only [Option.map_some'] at ht
      obtain rfl := (Option.some.injEq _ _).mp ht.symm
      exact ⟨j, rfl, (hf j).1, (hf j).2⟩
  · rw [updateServer, if_neg hn] at ht
    exact ⟨i, ht, rfl, rfl⟩

theorem healthCheck_preservesStatusConfig (o : Net) (name : String) (s : MCPState) :
    PreservesStatusConfig s (healthCheck o name s).2 := by
  unfold healthCheck
  cases hs : s name with
  | none => exact preservesStatusConfig_refl s
  | some info =>
    dsimp only
    by_cases h1 : info.config.transport = MCPTransport.http ∨
        info.config.transport = MCPTransport.streamableHttp
    · rw [if_pos h1]
      cases o.healthResp { url := info.config.url ++ "/health", timeout := info.config.timeout } with
      | none => exact preservesStatusConfig_refl s
      | some code =>
        exact preservesStatusConfig_updateServer name s _ (fun i => ⟨rfl, rfl⟩)
    · rw [if_neg h1]
      by_cases h2 : info.config.transport = MCPTransport.stdio
      · rw [if_pos h2]
        cases info.process with
        | none => exact preservesStatusConfig_refl s
        | some p => exact preservesStatusConfig_updateServer name s _ (fun i => ⟨rfl, rfl⟩)
      · rw [if_neg h2]
        exact preservesStatusConfig_refl s

theorem discoverCapabilities_preservesStatusConfig (o : Net) (name : String) (s : MCPState) :
    PreservesStatusConfig s (discoverCapabilities o name s) := by
  unfold discoverCapabilities
  cases hs : s name with
  | none => exact preservesStatusConfig_refl s
  | some info =>
    dsimp only
    by_cases h1 : info.config.transport = MCPTransport.http ∨
        info.config.transport = MCPTransport.streamableHttp
    · rw [if_pos h1]
      have step1 : PreservesStatusConfig s
          (match o.toolsResp { url := info.config.url ++ "/tools", timeout := info.config.timeout } with
           | Option.some (code, ts) =>
               if code = 200 then
                 updateServer name (fun i => { i with available_tools := ts }) s
               else s
           | Option.none => s) := by
        cases o.toolsResp { url := info.config.url ++ "/tools", timeout := info.config.timeout } with
        | none => exact preservesStatusConfig_refl s
        | some pr =>
          obtain ⟨code, ts⟩ := pr
          dsimp only
          by_cases hc : code = 200
          · rw [if_pos hc]
            exact preservesStatusConfig_updateServer name s _ (fun i => ⟨rfl, rfl⟩)
          · rw [if_neg hc]
            exact preservesStatusConfig_refl s
      cases o.resourcesResp { url := info.config.url ++ "/resources", timeout := info.config.timeout } with
      | none => exact step1
      | some pr =>
        obtain ⟨code, rs⟩ := pr
        dsimp only
        by_cases hc : code = 200
        · rw [if_pos hc]
          exact preservesStatusConfig_trans step1
            (preservesStatusConfig_updateServer name _ _ (fun i => ⟨rfl, rfl⟩))
        · rw [if_neg hc]
          exact step1
    · rw [if_neg h1]
      exact preservesStatusConfig_refl s

theorem runningIsHttp_transfer {s t : MCPState} (hp : PreservesStatusConfig s t)
    (hs : RunningIsHttp s) : RunningIsHttp t := by
  intro n i ht hrun
  obtain ⟨j, hj, hst, hcf⟩ := hp n i ht
  rw [hcf]
  exact hs n j hj (by rw [← hst]; exact hrun)

theorem runningIsHttp_updateEntry {s : MCPState} (hs : RunningIsHttp s) (name : String)
    (f : MCPServerInfo → MCPServerInfo)
    (hf : ∀ i, (f i).status ≠ MCPServerStatus.running ∨
        ((f i).status = i.status ∧ (f i).config = i.config)) :
    RunningIsHttp (updateServer name f s) := by
  intro n i ht hrun
  by_cases hn : n = name
  · rw [updateServer, if_pos hn] at ht
    cases hsn : s n with
    | none => rw [hsn] at ht; cases ht
    | some j =>
      rw [hsn] at ht
      simp only [Option.map_some'] at ht
      obtain rfl := Option.some.inj ht
      rcases hf j with h | ⟨h1, h2⟩
      · exact absurd hrun h
      · rw [h2]
        exact hs n j hsn (by rw [← h1]; exact hrun)
  · rw [updateServer, if_neg hn] at ht
    exact hs n i ht hrun

theorem runningIsHttp_loadState (cfgs : String → Option MCPServerConfig) :
    RunningIsHttp (loadState cfgs) := by
  intro n i h hrun
  unfold loadState at h
  cases hc : cfgs n with
  | none => rw [hc] at h; cases h
  | some cfg =>
    rw [hc] at h
    simp only [Option.map_some'] at h
    obtain rfl := Option.some.inj h
    exact MCPServerStatus.noConfusion hrun

theorem addServer_runningIsHttp (cfg : MCPServerConfig) {s : MCPState}
    (hs : RunningIsHttp s) : RunningIsHttp (addServer cfg s).2 := by
  intro n i ht hrun
  unfold addServer at ht
  dsimp only at ht
  by_cases hn : n = cfg.name
  · rw [if_pos hn] at ht
    obtain rfl := Option.some.inj ht
    exact MCPServerStatus.noConfusion hrun
  · rw [if_neg hn] at ht
    exact hs n i ht hrun

theorem stopServer_runningIsHttp (name : String) {s : MCPState}
    (hs : RunningIsHttp s) : RunningIsHttp (stopServer name s).2 := by
  unfold stopServer
  cases hc : s name with
  | none => exact hs
  | some info =>
    dsimp only
    by_cases h2 : info.status = MCPServerStatus.stopped
    · rw [if_pos h2]
      exact hs
    · rw [if_neg h2]
      exact runningIsHttp_updateEntry hs name _ (fun i => Or.inl fun h => MCPServerStatus.noConfusion h)

theorem deleteServer_runningIsHttp (name : String) {s : MCPState}
    (hs : RunningIsHttp s) : RunningIsHttp (deleteServer name s).2 := by
  unfold deleteServer
  cases hc : s name with
  | none => exact hs
  | some info =>
    dsimp only
    intro n i ht hrun
    dsimp only at ht
    by_cases hn : n = name
    · rw [if_pos hn] at ht
      cases ht
    · rw [if_neg hn] at ht
      by_cases hr : info.status = MCPServerStatus.running
      · rw [if_pos hr] at ht
        exact stopServer_runningIsHttp name hs n i ht hrun
      · rw [if_neg hr] at ht
        exact hs n i ht hrun

theorem startServer_runningIsHttp (o : Net) (name : String) {s : MCPState}
    (hs : RunningIsHttp s) : RunningIsHttp (startServer o name s).2 := by
  unfold startServer
  cases hc : s name with
  | none => exact hs
  | some info =>
    dsimp only
    by_cases c1 : ¬ (info.config.enabled = true)
    · rw [if_pos c1]
      exact hs
    · rw [if_neg c1]
      by_cases c2 : info.status = MCPServerStatus.running
      · rw [if_pos c2]
        exact hs
      · rw [if_neg c2]
        have hs1 : RunningIsHttp (updateServer name
            (fun i => { i with
                status := MCPServerStatus.starting
                error_message := Option.none }) s) :=
          runningIsHttp_updateEntry hs name _ (fun i => Or.inl fun h => MCPServerStatus.noConfusion h)
        by_cases c3 : info.config.transport = MCPTransport.stdio ∧ strTruthy info.config.command = true
        · rw [if_pos c3]
          exact runningIsHttp_updateEntry hs1 name _ (fun i => Or.inl fun h => MCPServerStatus.noConfusion h)
        · rw [if_neg c3]
          by_cases c4 : info.config.transport = MCPTransport.http ∨
              info.config.transport = MCPTransport.streamableHttp
          · rw [if_pos c4]
            set s1 := updateServer name
              (fun i => { i with
                  status := MCPServerStatus.starting
                  error_message := Option.none }) s with hs1def
            by_cases c5 : (healthCheck o name s1).1 = true
            · rw [if_pos c5]
              have hkey : ∀ j, (healthCheck o name s1).2 name = Option.some j →
                  j.config = info.config := by
                intro j hj
                obtain ⟨j1, hj1, _, hcf⟩ := healthCheck_preservesStatusConfig o name s1 name j hj
                rw [hs1def, updateServer, if_pos rfl, hc] at hj1
                simp only [Option.map_some'] at hj1
                obtain rfl := Option.some.inj hj1
                exact hcf
              have hrun_state : RunningIsHttp (updateServer name
                  (fun i => { i with status := MCPServerStatus.running })
                  (healthCheck o name s1).2) := by
                intro n i ht hrunI
                by_cases hn : n = name
                · rw [updateServer, if_pos hn, hn] at ht
                  cases hj : (healthCheck o name s1).2 name with
                  | none => rw [hj] at ht; cases ht
                  | some j =>
                    rw [hj] at ht
                    simp only [Option.map_some'] at ht
                    obtain rfl := Option.some.inj ht
                    have hcj := hkey j hj
                    rw [show ({ j with status := MCPServerStatus.running } :
                        MCPServerInfo).config = j.config from rfl, hcj]
                    exact c4
                · rw [updateServer, if_neg hn] at ht
                  exact runningIsHttp_transfer (healthCheck_preservesStatusConfig o name s1)
                    hs1 n i ht hrunI
              exact runningIsHttp_transfer
                (discoverCapabilities_preservesStatusConfig o name _) hrun_state
            · rw [if_neg c5]
              exact runningIsHttp_updateEntry
                (runningIsHttp_transfer (healthCheck_preservesStatusConfig o name s1) hs1)
                name _ (fun i => Or.inl fun h => MCPServerStatus.noConfusion h)
          · rw [if_neg c4]
            exact runningIsHttp_transfer
              (discoverCapabilities_preservesStatusConfig o name _) hs1

theorem reachable_runningIsHttp {s : MCPState} (h : ReachableMCP s) : RunningIsHttp s := by
  induction h with
  | load cfgs => exact runningIsHttp_loadState cfgs
  | add cfg _ ih => exact addServer_runningIsHttp cfg ih
  | start o name _ ih => exact startServer_runningIsHttp o name ih
  | stop name _ ih => exact stopServer_runningIsHttp name ih
  | del name _ ih => exact deleteServer_runningIsHttp name ih
  | health o name _ ih =>
      exact runningIsHttp_transfer (healthCheck_preservesStatusConfig o name _) ih
  | discover o name _ ih =>
      exact runningIsHttp_transfer (discoverCapabilities_preservesStatusConfig o name _) ih

theorem runningState_reachable : ReachableMCP runningState :=
  ReachableMCP.start httpNet "weather" (ReachableMCP.load weatherConfigs)

/-- C1: the claim says start_server launches the configured subprocess
for a STDIO server with a command and reports RUNNING when it survives
the startup wait. The code cannot: mcp_service.py line 204 reads
os.environ without importing os, so the call raises NameError before
subprocess.Popen, the broad handler stores status ERROR with the
interpreter message, no process handle is ever set, and the call reports
False. This theorem evaluates the embedded code at that failing input. -/
theorem start_server_stdio_name_error :
    (startServer noNet "local" stdioState).1 = false ∧
    statusOf "local" (startServer noNet "local" stdioState).2 =
      Option.some MCPServerStatus.error ∧
    ((startServer noNet "local" stdioState).2 "local").map MCPServerInfo.error_message =
      Option.some (Option.some "name \x27os\x27 is not defined") ∧
    ((startServer noNet "local" stdioState).2 "local").map MCPServerInfo.process =
      Option.some Option.none := by
  decide

theorem dirtyStoppedState_reachable : ReachableMCP dirtyStoppedState :=
  ReachableMCP.discover httpNet "weather" (ReachableMCP.load weatherConfigs)

/-- C3 counterexample: the discover endpoint is exposed independently of
the lifecycle and fills the tool list of a STOPPED server; stop_server
then returns True through the already-stopped early return at
mcp_service.py lines 260-262 and leaves that list non-empty, against the
claim that the lists are empty after every successful stop. -/
theorem stop_server_keeps_stale_tools :
    (stopServer "weather" dirtyStoppedState).1 = true ∧
    ((stopServer "weather" dirtyStoppedState).2 "weather").map MCPServerInfo.available_tools =
      Option.some ["get_weather"] := by
  decide

/-- C3 (amended): stop_server returns True exactly for registered
servers and False only for unregistered ones; when the server is not
already STOPPED, afterwards its status is STOPPED, its process handle is
cleared, its error message is None, its tool and resource lists are
empty and every other server is untouched; when it is already STOPPED
the whole state is returned unchanged (so lists a stopped-state
discovery filled stay as they are). -/
theorem stop_server_spec :
    ∀ (name : String) (s : MCPState),
      ((stopServer name s).1 = true ↔ (s name).isSome = true) ∧
      (∀ i, s name = Option.some i →
        (i.status = MCPServerStatus.stopped → stopServer name s = (true, s)) ∧
        (i.status ≠ MCPServerStatus.stopped →
          (stopServer name s).1 = true ∧
          (stopServer name s).2 name = Option.some { i with
            process := Option.none
            status := MCPServerStatus.stopped
            error_message := Option.none
            available_tools := []
            available_resources := [] } ∧
          ∀ n, n ≠ name → (stopServer name s).2 n = s n)) := by
  intro name s
  unfold stopServer
  cases hc : s name with
  | none => exact ⟨(by simp), (fun i hi => by cases hi)⟩
  | some info =>
    dsimp only
    constructor
    · by_cases h2 : info.status = MCPServerStatus.stopped
      · rw [if_pos h2]
        simp
      · rw [if_neg h2]
        simp
    · intro i hi
      obtain rfl := Option.some.inj hi
      constructor
      · intro h2
        rw [if_pos h2]
      · intro h2
        rw [if_neg h2]
        refine ⟨rfl, ?_, ?_⟩
        · show updateServer name _ s name = _
          rw [updateServer, if_pos rfl, hc]
          rfl
        · intro n hn
          show updateServer name _ s n = s n
          rw [updateServer, if_neg hn]

/-- C4: health_check reports False for every unregistered name; for a
registered HTTP or STREAMABLE_HTTP server it reports True exactly when
the GET on the /health url (issued with the configured timeout) answers
status code 200, recording the check time whenever a response arrives;
for a STDIO server it reports the poll of a previously launched process,
and False with no state change when no process exists. -/
theorem health_check_spec :
    ∀ (o : Net) (name : String) (s : MCPState),
      (s name = Option.none → healthCheck o name s = (false, s)) ∧
      (∀ i, s name = Option.some i →
        ((i.config.transport = MCPTransport.http ∨
          i.config.transport = MCPTransport.streamableHttp) →
          ((healthCheck o name s).1 = true ↔
            o.healthResp { url := i.config.url ++ "/health", timeout := i.config.timeout } =
              Option.some 200) ∧
          (∀ code,
            o.healthResp { url := i.config.url ++ "/health", timeout := i.config.timeout } =
              Option.some code →
            ((healthCheck o name s).2 name).map MCPServerInfo.last_health_check =
              Option.some (Option.some o.now)) ∧
          (o.healthResp { url := i.config.url ++ "/health", timeout := i.config.timeout } =
              Option.none →
            healthCheck o name s = (false, s))) ∧
        (i.config.transport = MCPTransport.stdio →
          (∀ p, i.process = Option.some p →
            (healthCheck o name s).1 = o.alive p) ∧
          (i.process = Option.none → healthCheck o name s = (false, s)))) := by
  intro o name s
  unfold healthCheck
  cases hc : s name with
  | none => exact ⟨(fun _ => rfl), (fun i hi => by cases hi)⟩
  | some info =>
    dsimp only
    refine ⟨(fun h => by cases h), ?_⟩
    intro i hi
    obtain rfl := Option.some.inj hi
    constructor
    · intro h1
      rw [if_pos h1]
      refine ⟨?_, ?_, ?_⟩
      · cases hr : o.healthResp { url := info.config.url ++ "/health", timeout := info.config.timeout } with
        | none => simp [hr]
        | some code => simp [hr]
      · intro code hcode
        rw [hcode]
        dsimp only
        rw [updateServer, if_pos rfl, hc]
        rfl
      · intro hnone
        rw [hnone]
    · intro h2
      have h1 : ¬ (info.config.transport = MCPTransport.http ∨
          info.config.transport = MCPTransport.streamableHttp) := by
        rw [h2]; rintro (h | h) <;> cases h
      rw [if_neg h1, if_pos h2]
      constructor
      · intro p hp
        rw [hp]
      · intro hp
        rw [hp]

theorem callTool_state_id (o : Net) (a b c : String) (s : MCPState) :
    (callTool o a b c s).2 = s := by
  unfold callTool
  cases hs : s a with
  | none => rfl
  | some info =>
    dsimp only
    split
    · rfl
    · split
      · split
        · rfl
        · split <;> rfl
      · rfl

theorem getResource_state_id (o : Net) (a b : String) (s : MCPState) :
    (getResource o a b s).2 = s := by
  unfold getResource
  cases hs : s a with
  | none => rfl
  | some info =>
    dsimp only
    split
    · rfl
    · split
      · split
        · rfl
        · split <;> rfl
      · rfl

/-- C2: call_tool and get_resource raise for an unknown server and for a
server whose status is not RUNNING; on a RUNNING server (which, in every
state the service can reach, has an HTTP transport) they proxy over HTTP
with the url built from the server configuration and the configured
timeout, re-raising transport errors and non-success statuses; and in
every case, error or not, the tracked server state is returned exactly
as it was. -/
theorem call_tool_get_resource_spec (o : Net)
    (serverName toolName arguments resourceUri : String) (s : MCPState)
    (hreach : ReachableMCP s) :
    (callTool o serverName toolName arguments s).2 = s ∧
    (getResource o serverName resourceUri s).2 = s ∧
    (s serverName = Option.none →
      (callTool o serverName toolName arguments s).1 =
        Except.error MCPCallError.serverNotFound ∧
      (getResource o serverName resourceUri s).1 =
        Except.error MCPCallError.serverNotFound) ∧
    (∀ i, s serverName = Option.some i → i.status ≠ MCPServerStatus.running →
      (callTool o serverName toolName arguments s).1 =
        Except.error MCPCallError.serverNotRunning ∧
      (getResource o serverName resourceUri s).1 =
        Except.error MCPCallError.serverNotRunning) ∧
    (∀ i, s serverName = Option.some i → i.status = MCPServerStatus.running →
      (callTool o serverName toolName arguments s).1 =
        (match o.toolCallResp
            { url := i.config.url ++ "/tools/" ++ toolName, timeout := i.config.timeout }
            arguments with
         | Option.none => Except.error MCPCallError.transportRaised
         | Option.some (code, body) =>
             if httpSuccess code then Except.ok body
             else Except.error (MCPCallError.httpStatusError code)) ∧
      (getResource o serverName resourceUri s).1 =
        (match o.resourceResp
            { url := i.config.url ++ "/resources", timeout := i.config.timeout }
            resourceUri with
         | Option.none => Except.error MCPCallError.transportRaised
         | Option.some (code, body) =>
             if httpSuccess code then Except.ok body
             else Except.error (MCPCallError.httpStatusError code))) := by
  refine ⟨callTool_state_id o serverName toolName arguments s,
    getResource_state_id o serverName resourceUri s, ?_, ?_, ?_⟩
  · intro hnone
    constructor
    · unfold callTool
      rw [hnone]
    · unfold getResource
      rw [hnone]
  · intro i hi hnr
    constructor
    · unfold callTool
      rw [hi]
      dsimp only
      rw [if_pos hnr]
    · unfold getResource
      rw [hi]
      dsimp only
      rw [if_pos hnr]
  · intro i hi hrun
    have htr : i.config.transport = MCPTransport.http ∨
        i.config.transport = MCPTransport.streamableHttp :=
      reachable_runningIsHttp hreach serverName i hi hrun
    constructor
    · unfold callTool
      rw [hi]
      dsimp only
      rw [if_neg (not_not_intro hrun), if_pos htr]
      cases o.toolCallResp
          { url := i.config.url ++ "/tools/" ++ toolName, timeout := i.config.timeout }
          arguments with
      | none => rfl
      | some pr =>
        obtain ⟨code, body⟩ := pr
        dsimp only
        split <;> rfl
    · unfold getResource
      rw [hi]
      dsimp only
      rw [if_neg (not_not_intro hrun), if_pos htr]
      cases o.resourceResp
          { url := i.config.url ++ "/resources", timeout := i.config.timeout }
          resourceUri with
      | none => rfl
      | some pr =>
        obtain ⟨code, body⟩ := pr
        dsimp only
        split <;> rfl

/-- Closed check that the hypotheses of the C2 theorem are satisfiable:
on the reachable state holding the RUNNING weather server, the theorem
yields the proxied success answer and the untouched state. -/
theorem call_tool_get_resource_spec_witness :
    (callTool httpNet "weather" "get_weather" "city" runningState).2 = runningState ∧
    (callTool httpNet "weather" "get_weather" "city" runningState).1 = Except.ok "result" := by
  have h := call_tool_get_resource_spec httpNet "weather" "get_weather" "city" "memo"
    runningState runningState_reachable
  refine ⟨h.1, ?_⟩
  have hrun := h.2.2.2.2
  have hsi : runningState "weather" = Option.some
      { config := httpServerConfig
        status := MCPServerStatus.running
        process := Option.none
        last_health_check := Option.some 7
        error_message := Option.none
        available_tools := ["get_weather"]
        available_resources := [] } := by decide
  have hmain := hrun _ hsi rfl
  rw [hmain.1]
  rfl

/-- C9: delete_configuration refuses the reserved default agent and
unknown names, reporting False and leaving both stores untouched. -/
theorem delete_configuration_guard :
    ∀ (agent_name : String) (st : AgentState),
      (agent_name = "default" ∨ st.configurations agent_name = Option.none) →
      deleteConfiguration agent_name st = (false, st) := by
  intro agent_name st h
  unfold deleteConfiguration
  rcases h with h | h
  · subst h
    cases hc : st.configurations "default" with
    | none => rfl
    | some c =>
      dsimp only
      rw [if_pos rfl]
  · rw [h]

theorem delete_configuration_guard_witness :
    deleteConfiguration "default" seededAgentState = (false, seededAgentState) :=
  delete_configuration_guard "default" seededAgentState (Or.inl rfl)

/-- C10: add_configuration, duplicate_configuration,
delete_configuration and default creation all preserve the invariant
that a stored configuration names its own key. -/
theorem mutators_preserve_name_key :
    ∀ (st : AgentState), NameMatchesKey st →
      (∀ (r : String → String) (agent_name : String) (config : AgentConfig),
        NameMatchesKey (addConfiguration r agent_name config st).2) ∧
      (∀ source_name target_name : String,
        NameMatchesKey (duplicateConfiguration source_name target_name st).2) ∧
      (∀ agent_name : String, NameMatchesKey (deleteConfiguration agent_name st).2) ∧
      NameMatchesKey (createDefaultConfiguration st) := by
  intro st hst
  refine ⟨?_, ?_, ?_, ?_⟩
  · intro r agent_name config
    unfold addConfiguration
    by_cases hv : validAgentConfig (processEnvVars r config)
    · rw [if_pos hv]
      intro n c h
      dsimp only at h
      by_cases hn : n = agent_name
      · rw [if_pos hn] at h
        obtain rfl := Option.some.inj h
        exact hn.symm
      · rw [if_neg hn] at h
        exact hst n c h
    · rw [if_neg hv]
      exact hst
  · intro source_name target_name
    unfold duplicateConfiguration
    cases hsrc : st.configurations source_name with
    | none => exact hst
    | some src =>
      dsimp only
      by_cases ht : (st.configurations target_name).isSome = true
      · rw [if_pos ht]
        exact hst
      · rw [if_neg ht]
        by_cases hv : validAgentConfig src
        · rw [if_pos hv]
          intro n c h
          dsimp only at h
          by_cases hn : n = target_name
          · rw [if_pos hn] at h
            obtain rfl := Option.some.inj h
            exact hn.symm
          · rw [if_neg hn] at h
            exact hst n c h
        · rw [if_neg hv]
          exact hst
  · intro agent_name
    unfold deleteConfiguration
    cases hc : st.configurations agent_name with
    | none => exact hst
    | some c0 =>
      dsimp only
      by_cases hd : agent_name = "default"
      · rw [if_pos hd]
        exact hst
      · rw [if_neg hd]
        intro n c h
        dsimp only at h
        by_cases hn : n = agent_name
        · rw [if_pos hn] at h
          cases h
        · rw [if_neg hn] at h
          exact hst n c h
  · intro n c h
    unfold createDefaultConfiguration at h
    dsimp only at h
    by_cases hn : n = "default"
    · rw [if_pos hn] at h
      obtain rfl := Option.some.inj h
      exact hn.symm
    · rw [if_neg hn] at h
      exact hst n c h

theorem mutators_preserve_name_key_witness :
    NameMatchesKey (createDefaultConfiguration emptyAgentState) :=
  (mutators_preserve_name_key emptyAgentState
    (fun _ _ h => Option.noConfusion h)).2.2.2

/-- C7: once add_configuration reports True, get_configuration returns
exactly the stored configuration: the input with its environment
variables substituted and its name field overwritten with the key; and
once delete_configuration on that name reports True, get_configuration
returns nothing. -/
theorem add_get_delete_roundtrip :
    ∀ (r : String → String) (agent_name : String) (config : AgentConfig) (st : AgentState),
      (addConfiguration r agent_name config st).1 = true →
      getConfiguration agent_name (addConfiguration r agent_name config st).2 =
        Option.some { processEnvVars r config with name := agent_name } ∧
      ((deleteConfiguration agent_name (addConfiguration r agent_name config st).2).1 = true →
        getConfiguration agent_name
          (deleteConfiguration agent_name (addConfiguration r agent_name config st).2).2 =
          Option.none) := by
  intro r agent_name config st h
  unfold addConfiguration at h ⊢
  by_cases hv : validAgentConfig (processEnvVars r config)
  · rw [if_pos hv] at h ⊢
    dsimp only
    constructor
    · unfold getConfiguration
      dsimp only
      rw [if_pos rfl]
    · intro h2
      unfold deleteConfiguration at h2 ⊢
      dsimp only at h2 ⊢
      rw [if_pos rfl] at h2 ⊢
      dsimp only at h2 ⊢
      by_cases hd : agent_name = "default"
      · rw [if_pos hd] at h2
        cases h2
      · rw [if_neg hd]
        unfold getConfiguration
        dsimp only
        rw [if_pos rfl]
  · rw [if_neg hv] at h
    cases h

theorem add_get_delete_roundtrip_witness :
    getConfiguration "alpha"
      (addConfiguration (fun v => v) "alpha" defaultAgentConfig emptyAgentState).2 =
      Option.some { processEnvVars (fun v => v) defaultAgentConfig with name := "alpha" } ∧
    ((deleteConfiguration "alpha"
        (addConfiguration (fun v => v) "alpha" defaultAgentConfig emptyAgentState).2).1 = true →
      getConfiguration "alpha"
        (deleteConfiguration "alpha"
          (addConfiguration (fun v => v) "alpha" defaultAgentConfig emptyAgentState).2).2 =
        Option.none) :=
  add_get_delete_roundtrip (fun v => v) "alpha" defaultAgentConfig emptyAgentState (by decide)

theorem runMetricsCalls_snoc (agent_name : String) (calls : List ExecCall) (c : ExecCall) :
    runMetricsCalls agent_name (calls ++ [c]) =
      updateMetricsEntry (runMetricsCalls agent_name calls)
        c.execution_time c.success c.iterations c.tool_calls c.clock := by
  unfold runMetricsCalls
  rw [List.foldl_append]
  rfl

/-- C5: over any sequence of update_metrics calls for an agent, the
execution counter equals the number of calls (so it grows by exactly one
per call) and splits into successes plus failures, the tool-call total
is the sum of the tool_calls arguments, and each stored average times
the call count equals the corresponding sum, hence for a non-empty
sequence the averages are the exact arithmetic means. -/
theorem update_metrics_aggregates :
    ∀ (agent_name : String) (calls : List ExecCall),
      (runMetricsCalls agent_name calls).total_executions =
        (runMetricsCalls agent_name calls).successful_executions +
          (runMetricsCalls agent_name calls).failed_executions ∧
      (runMetricsCalls agent_name calls).total_executions = calls.length ∧
      (runMetricsCalls agent_name calls).total_tool_calls =
        (calls.map ExecCall.tool_calls).sum ∧
      (runMetricsCalls agent_name calls).average_execution_time * (calls.length : ℚ) =
        (calls.map ExecCall.execution_time).sum ∧
      (runMetricsCalls agent_name calls).average_iterations * (calls.length : ℚ) =
        (calls.map fun c => (c.iterations : ℚ)).sum ∧
      (calls ≠ [] →
        (runMetricsCalls agent_name calls).average_execution_time =
          (calls.map ExecCall.execution_time).sum / (calls.length : ℚ) ∧
        (runMetricsCalls agent_name calls).average_iterations =
          (calls.map fun c => (c.iterations : ℚ)).sum / (calls.length : ℚ)) := by
  intro agent_name calls
  induction calls using List.reverseRecOn with
  | nil =>
    refine ⟨rfl, rfl, rfl, by simp [runMetricsCalls, freshMetrics], by
      simp [runMetricsCalls, freshMetrics], fun h => absurd rfl h⟩
  | append_singleton l c ih =>
    obtain ⟨ih1, ih2, ih3, ih4, ih5, _⟩ := ih
    rw [runMetricsCalls_snoc]
    set m := runMetricsCalls agent_name l with hm
    have hlen : ((l ++ [c]).length : ℚ) = (l.length : ℚ) + 1 := by
      push_cast [List.length_append, List.length_cons, List.length_nil]
      ring
    have hlen_ne : ((l ++ [c]).length : ℚ) ≠ 0 := by
      rw [hlen]
      positivity
    have htot : (updateMetricsEntry m c.execution_time c.success c.iterations
        c.tool_calls c.clock).total_executions = (l ++ [c]).length := by
      simp only [updateMetricsEntry, List.length_append, List.length_cons,
        List.length_nil, ih2]
    have hcast : ((m.total_executions + 1 : Nat) : ℚ) - 1 = (l.length : ℚ) := by
      push_cast [ih2]
      ring
    have hcast2 : ((m.total_executions + 1 : Nat) : ℚ) = (l.length : ℚ) + 1 := by
      push_cast [ih2]
      ring
    have h4 : (updateMetricsEntry m c.execution_time c.success c.iterations
        c.tool_calls c.clock).average_execution_time * ((l ++ [c]).length : ℚ) =
        ((l ++ [c]).map ExecCall.execution_time).sum := by
      simp only [updateMetricsEntry]
      rw [hcast, hcast2, hlen, div_mul_cancel₀ _ (by positivity : (l.length : ℚ) + 1 ≠ 0),
        List.map_append, List.sum_append, ih4]
      simp
    have h5 : (updateMetricsEntry m c.execution_time c.success c.iterations
        c.tool_calls c.clock).average_iterations * ((l ++ [c]).length : ℚ) =
        ((l ++ [c]).map fun x => (x.iterations : ℚ)).sum := by
      simp only [updateMetricsEntry]
      rw [hcast, hcast2, hlen, div_mul_cancel₀ _ (by positivity : (l.length : ℚ) + 1 ≠ 0),
        List.map_append, List.sum_append, ih5]
      simp
    refine ⟨?_, htot, ?_, h4, h5, fun _ => ⟨?_, ?_⟩⟩
    · simp only [updateMetricsEntry]
      cases hcs : c.success <;> simp [ih1] <;> omega
    · simp only [updateMetricsEntry, List.map_append, List.sum_append, ih3]
      simp
    · rw [eq_div_iff hlen_ne]
      exact h4
    · rw [eq_div_iff hlen_ne]
      exact h5

theorem trimFront_spec (max_tokens : ℚ) :
    ∀ l : List MemoryEntry,
      ∃ k, k ≤ l.length ∧ trimFront max_tokens l = l.drop k ∧
        (totalTokens (trimFront max_tokens l) ≤ max_tokens ∨
          (trimFront max_tokens l).length ≤ 1) ∧
        ∀ j, j < k → max_tokens < totalTokens (l.drop j) ∧ 1 < (l.drop j).length := by
  intro l
  induction l with
  | nil =>
    exact ⟨0, Nat.le_refl 0, rfl, Or.inr (by simp [trimFront]),
      (fun j hj => absurd hj (Nat.not_lt_zero j))⟩
  | cons e tail ih =>
    cases tail with
    | nil =>
      exact ⟨0, Nat.zero_le 1, rfl, Or.inr (by simp [trimFront]),
        (fun j hj => absurd hj (Nat.not_lt_zero j))⟩
    | cons f rest =>
      by_cases h : max_tokens < totalTokens (e :: f :: rest)
      · have hstep : trimFront max_tokens (e :: f :: rest) = trimFront max_tokens (f :: rest) := by
          simp only [trimFront, if_pos h]
        obtain ⟨k, hk, heq, hpost, hmin⟩ := ih
        refine ⟨k + 1, ?_, ?_, ?_, ?_⟩
        · simpa using Nat.succ_le_succ hk
        · rw [hstep, heq]
          rfl
        · rw [hstep]
          exact hpost
        · intro j hj
          cases j with
          | zero =>
            refine ⟨by simpa using h, ?_⟩
            simp only [List.drop_zero, List.length_cons]
            omega
          | succ j =>
            have := hmin j (Nat.lt_of_succ_lt_succ hj)
            simpa using this
      · refine ⟨0, Nat.zero_le _, ?_, ?_, (fun j hj => absurd hj (Nat.not_lt_zero j))⟩
        · simp only [trimFront, if_neg h, List.drop_zero]
        · rw [show trimFront max_tokens (e :: f :: rest) = e :: f :: rest from by
            simp only [trimFront, if_neg h]]
          exact Or.inl (le_of_not_lt h)

/-- C6: store_conversation appends the incoming messages as memory
entries at the back and then removes entries only from the front, each
removed exactly because the token estimate still exceeded the configured
limit while more than one entry remained; the surviving entries are a
suffix of the appended list in their original order, and the result
either fits the limit or is a single entry. -/
theorem store_conversation_spec :
    ∀ (c : AgentConfig) (old : List MemoryEntry) (messages : List ChatMessage),
      ∃ k, k ≤ (old ++ messages.map toMemoryEntry).length ∧
        storeConversation (Option.some c) old messages =
          (old ++ messages.map toMemoryEntry).drop k ∧
        (totalTokens (storeConversation (Option.some c) old messages) ≤
            (c.memory.max_tokens : ℚ) ∨
          (storeConversation (Option.some c) old messages).length ≤ 1) ∧
        ∀ j, j < k →
          (c.memory.max_tokens : ℚ) <
            totalTokens ((old ++ messages.map toMemoryEntry).drop j) ∧
          1 < ((old ++ messages.map toMemoryEntry).drop j).length := by
  intro c old messages
  exact trimFront_spec (c.memory.max_tokens : ℚ) (old ++ messages.map toMemoryEntry)

/-- C8: the claim says get_memory_context terminates for every
configuration, the VECTOR branch falling back to buffer memory. The code
does not: memory_service.py line 165 calls get_memory_context with the
same agent and messages, so the recursion makes no progress; however
much fuel the unfolding gets, no value is produced (in CPython the
recursion is only cut short by RecursionError, which the broad handler
turns into the unprocessed input, never reaching the buffer logic). -/
theorem get_memory_context_vector_diverges :
    ∀ fuel : Nat,
      getMemoryContextFuel fuel (Option.some vectorAgentConfig) vectorMemStores
        "researcher" [] = Option.none := by
  intro fuel
  induction fuel with
  | zero => rfl
  | succ n ih => exact ih
